import Mathlib

/- Shallow embedding of the conversation/messaging subsystem of the grupo
   manufacturing-marketplace backend:
   - the `conversations`, `messages` and `message_attachments` tables
     (supabase/schema.sql),
   - ConversationRepository (src/services/database/ConversationRepository.js),
   - the Socket.IO gateway handlers and the in-memory presence map
     (the server entry file, src/unnamed/part_003).
   Timestamps are modelled as naturals, row ids as naturals.  Values that the
   database generates at execution time (fresh row ids, NOW()) are passed to
   the embedded operations as explicit oracle arguments. -/

/-- A row of the `conversations` table (supabase/schema.sql). -/
structure Conversation where
  id : Nat
  buyer_id : Nat
  manufacturer_id : Nat
  created_at : Nat
  last_message_at : Option Nat
  last_message_text : Option String
  is_archived : Bool
deriving DecidableEq, Repr

/-- A row of the `messages` table (supabase/schema.sql).  `is_read` defaults
to false at insertion. -/
structure Message where
  id : Nat
  conversation_id : Nat
  sender_role : String
  sender_id : Nat
  body : String
  requirement_id : Option Nat
  ai_design_id : Option Nat
  created_at : Nat
  is_read : Bool
  client_temp_id : Option String
deriving DecidableEq, Repr

/-- A row of the `message_attachments` table (supabase/schema.sql).
Only the columns that appear in schema.sql are modelled. -/
structure MessageAttachment where
  id : Nat
  message_id : Nat
  file_url : String
  mime_type : Option String
  size_bytes : Option Nat
deriving DecidableEq, Repr

/-- The relational store backing the chat subsystem: the three chat tables. -/
structure Store where
  conversations : List Conversation
  messages : List Message
  attachments : List MessageAttachment
deriving DecidableEq, Repr

/-- The row filter of `ConversationRepository.markRead`
(ConversationRepository.js:326-331): same conversation, created strictly
before the cutoff, and sent by someone other than the reader. -/
def matchesMarkRead (conversationId readerUserId upTo : Nat) (m : Message) : Bool :=
  m.conversation_id == conversationId
    && decide (m.created_at < upTo)
    && m.sender_id != readerUserId

/-- The per-row effect of the `update({ is_read: true })` in markRead. -/
def applyMarkRead (conversationId readerUserId upTo : Nat) (m : Message) : Message :=
  if matchesMarkRead conversationId readerUserId upTo m then
    { m with is_read := true }
  else m

/-- Embeds `ConversationRepository.markRead` (ConversationRepository.js:324-341):
updates `is_read := true` on every message row matching the filter and
returns the length of the row set the update touched (`data.length` of the
`.select('id')` result).  Note the filter does not exclude rows whose
`is_read` is already true. -/
def markRead (s : Store) (conversationId readerUserId upTo : Nat) : Store × Nat :=
  ({ s with messages := s.messages.map (applyMarkRead conversationId readerUserId upTo) },
   (s.messages.filter (matchesMarkRead conversationId readerUserId upTo)).length)

/-- Sample message: unread, sender 5, conversation 0, created at time 3. -/
def msgA : Message :=
  { id := 1, conversation_id := 0, sender_role := "buyer", sender_id := 5,
    body := "hi", requirement_id := none, ai_design_id := none,
    created_at := 3, is_read := false, client_temp_id := none }

/-- Sample store holding just `msgA`. -/
def storeA : Store := { conversations := [], messages := [msgA], attachments := [] }

/-- The message row built by `ConversationRepository.insertMessage`
(ConversationRepository.js:193-213): `is_read` takes its schema default
false, `created_at` and `id` are database-generated (passed as oracles). -/
def mkMessage (conversationId : Nat) (senderRole : String) (senderId : Nat)
    (body : String) (clientTempId : Option String)
    (requirementId aiDesignId : Option Nat) (newId createdAt : Nat) : Message :=
  { id := newId, conversation_id := conversationId, sender_role := senderRole,
    sender_id := senderId, body := body, requirement_id := requirementId,
    ai_design_id := aiDesignId, created_at := createdAt, is_read := false,
    client_temp_id := clientTempId }

/-- Per-row effect of the conversation-summary update in insertMessage
(ConversationRepository.js:218-223): rows whose id matches get the new
`last_message_at` / `last_message_text`. -/
def summaryUpd (conversationId lastMessageAt : Nat) (lastMessageText : String)
    (c : Conversation) : Conversation :=
  if c.id == conversationId then
    { c with last_message_at := some lastMessageAt,
             last_message_text := some lastMessageText }
  else c

/-- The `update(...).eq('id', conversationId)` step of insertMessage. -/
def updateSummary (s : Store) (conversationId lastMessageAt : Nat)
    (lastMessageText : String) : Store :=
  { s with conversations :=
      s.conversations.map (summaryUpd conversationId lastMessageAt lastMessageText) }

/-- Embeds `ConversationRepository.insertMessage` (ConversationRepository.js:191-233):
appends the message row (throwing on insert failure), then updates the parent
conversation summary to the new row's `created_at` and to `summaryText ?? body`;
a summary-update failure is only logged, so the inserted message is returned
either way.  The two booleans are the outcomes of the two store calls. -/
def insertMessage (s : Store) (conversationId : Nat) (senderRole : String)
    (senderId : Nat) (body : String) (clientTempId : Option String)
    (summaryText : Option String) (requirementId aiDesignId : Option Nat)
    (newId createdAt : Nat) (insertOk summaryOk : Bool) :
    Except String (Store × Message) :=
  if insertOk then
    let msg := mkMessage conversationId senderRole senderId body clientTempId
      requirementId aiDesignId newId createdAt
    let s1 : Store := { s with messages := s.messages ++ [msg] }
    let s2 := if summaryOk then
        updateSummary s1 conversationId createdAt (summaryText.getD body)
      else s1
    .ok (s2, msg)
  else
    .error "Failed to insert message"

/-- The caller-supplied arguments of one insertMessage call into a fixed
conversation, together with the database-generated id and creation time. -/
structure InsertCall where
  senderRole : String
  senderId : Nat
  body : String
  clientTempId : Option String
  summaryText : Option String
  requirementId : Option Nat
  aiDesignId : Option Nat
  newId : Nat
  createdAt : Nat
deriving DecidableEq, Repr

/-- One successful insertMessage call (both store writes succeed). -/
def applyInsert (s : Store) (conversationId : Nat) (c : InsertCall) : Store :=
  match insertMessage s conversationId c.senderRole c.senderId c.body
      c.clientTempId c.summaryText c.requirementId c.aiDesignId
      c.newId c.createdAt true true with
  | .ok (s', _) => s'
  | .error _ => s

/-- A sequence of successful insertMessage calls into one conversation. -/
def applyInserts (s : Store) (conversationId : Nat) (calls : List InsertCall) : Store :=
  calls.foldl (fun st c => applyInsert st conversationId c) s

/-- Sample conversation with no messages yet. -/
def convB : Conversation :=
  { id := 4, buyer_id := 1, manufacturer_id := 2, created_at := 0,
    last_message_at := none, last_message_text := none, is_archived := false }

/-- Sample store holding just `convB`. -/
def storeB : Store := { conversations := [convB], messages := [], attachments := [] }

/-- Sample insertMessage call into `convB` with no explicit summary text. -/
def callB : InsertCall :=
  { senderRole := "buyer", senderId := 1, body := "Hello",
    clientTempId := none, summaryText := none, requirementId := none,
    aiDesignId := none, newId := 10, createdAt := 6 }

/-- The lookup `select('*').eq('buyer_id', ...).eq('manufacturer_id', ...)`
used by getOrCreateConversation (ConversationRepository.js:13-18). -/
def findConvPair (s : Store) (buyerId manufacturerId : Nat) : Option Conversation :=
  s.conversations.find? (fun c => c.buyer_id == buyerId && c.manufacturer_id == manufacturerId)

/-- Two conversation rows do not claim the same (buyer, manufacturer) pair. -/
def ConvDistinct (c1 c2 : Conversation) : Prop :=
  ¬(c1.buyer_id = c2.buyer_id ∧ c1.manufacturer_id = c2.manufacturer_id)

/-- The `uq_conversation_participants` uniqueness constraint of
supabase/schema.sql: at most one conversation per (buyer, manufacturer). -/
def pairUnique (s : Store) : Prop := s.conversations.Pairwise ConvDistinct

/-- The conversation row created by getOrCreateConversation's insert
(ConversationRepository.js:26-30); summary fields start null. -/
def mkConversation (buyerId manufacturerId newId createdAt : Nat) : Conversation :=
  { id := newId, buyer_id := buyerId, manufacturer_id := manufacturerId,
    created_at := createdAt, last_message_at := none, last_message_text := none,
    is_archived := false }

/-- An insert into `conversations` under the pair-uniqueness constraint:
fails with the Postgres unique-violation code when a row for the pair
already exists. -/
def insertConversation (s : Store) (buyerId manufacturerId newId createdAt : Nat) :
    Except String (Store × Conversation) :=
  match findConvPair s buyerId manufacturerId with
  | some _ => .error "23505"
  | none =>
      let c := mkConversation buyerId manufacturerId newId createdAt
      .ok ({ s with conversations := s.conversations ++ [c] }, c)

/-- The store as it stands when getOrCreateConversation reaches its insert:
a concurrent caller may have committed a row in the meantime. -/
def racedApply (s : Store) (raced : Option Conversation) : Store :=
  match raced with
  | some rc => { s with conversations := s.conversations ++ [rc] }
  | none => s

/-- The insert-or-re-read tail of getOrCreateConversation
(ConversationRepository.js:25-45): try the insert; on the uniqueness
conflict (code 23505) re-read the pair's row and return it, erroring only
if even the re-read finds nothing. -/
def getOrCreateRace (s1 : Store) (buyerId manufacturerId newId createdAt : Nat) :
    Except String (Store × Conversation) :=
  match insertConversation s1 buyerId manufacturerId newId createdAt with
  | .ok (s2, c) => .ok (s2, c)
  | .error _ =>
      match findConvPair s1 buyerId manufacturerId with
      | some c => .ok (s1, c)
      | none => .error "Failed to fetch conversation after conflict"

/-- Embeds `ConversationRepository.getOrCreateConversation`
(ConversationRepository.js:10-53): read the pair's row; if absent, insert,
and on a uniqueness conflict re-read and return the winner's row instead of
erroring.  `raced` is the row committed by a concurrent caller between this
call's initial read and its insert (`none` when no interleaving occurred);
the modelled insert fails exactly with the uniqueness violation, the only
failure the JS treats specially. -/
def getOrCreateConversation (s : Store) (buyerId manufacturerId : Nat)
    (raced : Option Conversation) (newId createdAt : Nat) :
    Except String (Store × Conversation) :=
  match findConvPair s buyerId manufacturerId with
  | some c => .ok (s, c)
  | none => getOrCreateRace (racedApply s raced) buyerId manufacturerId newId createdAt

/-- Sample conversation row for the C5 witness. -/
def convE : Conversation := mkConversation 1 2 7 3

/-- The empty store. -/
def storeE : Store := { conversations := [], messages := [], attachments := [] }

/-- The store after the C5 witness call has created `convE`. -/
def storeF : Store := { conversations := [convE], messages := [], attachments := [] }

/-- A repository operation that can touch message rows: markRead, or an
insertMessage whose two store writes may each succeed or fail. -/
inductive StoreOp where
  | opMarkRead (conversationId readerUserId upTo : Nat)
  | opInsert (conversationId : Nat) (call : InsertCall) (insertOk summaryOk : Bool)
deriving DecidableEq, Repr

/-- Effect of one repository operation on the store (a failed insert leaves
the store unchanged, matching the throw-and-catch in the JS). -/
def applyOp (s : Store) (op : StoreOp) : Store :=
  match op with
  | .opMarkRead cid r T => (markRead s cid r T).1
  | .opInsert cid c ok1 ok2 =>
      match insertMessage s cid c.senderRole c.senderId c.body c.clientTempId
          c.summaryText c.requirementId c.aiDesignId c.newId c.createdAt ok1 ok2 with
      | .ok (s', _) => s'
      | .error _ => s

/-- A sequence of repository operations applied in order. -/
def applyOps (s : Store) (ops : List StoreOp) : Store := ops.foldl applyOp s

/-- Sample already-read message from sender 7, for the C6 witness. -/
def msgRead : Message :=
  { id := 2, conversation_id := 0, sender_role := "manufacturer", sender_id := 7,
    body := "ok", requirement_id := none, ai_design_id := none,
    created_at := 1, is_read := true, client_temp_id := none }

/-- Sample store holding just `msgRead`. -/
def storeC : Store := { conversations := [], messages := [msgRead], attachments := [] }

/-- Substring test on character lists (the needle occurs contiguously). -/
def containsSub : List Char → List Char → Bool
  | [], needle => needle.isEmpty
  | c :: t, needle => needle.isPrefixOf (c :: t) || containsSub t needle

/-- Case-insensitive substring containment, modelling the `%...%` `ilike`
filter of PostgREST (wildcard characters inside the needle not modelled). -/
def containsCI (hay needle : String) : Bool :=
  containsSub (hay.data.map Char.toLower) (needle.data.map Char.toLower)

/-- Comparison on (`last_message_at`, `created_at`) keys implementing the
ORDER BY of listConversations (ConversationRepository.js:65-66):
`last_message_at` descending with nulls last, then `created_at` descending. -/
def tsLE : Option Nat → Option Nat → Nat → Nat → Bool
  | some x, some y, ca, cb => if x = y then decide (cb ≤ ca) else decide (y < x)
  | some _, none, _, _ => true
  | none, some _, _, _ => false
  | none, none, ca, cb => decide (cb ≤ ca)

/-- The row order of listConversations lifted to conversation rows. -/
def convLE (a b : Conversation) : Bool :=
  tsLE a.last_message_at b.last_message_at a.created_at b.created_at

/-- The participant filter of listConversations
(ConversationRepository.js:70-74): `buyer_id` for role buyer,
`manufacturer_id` for role manufacturer, and no filter for any other role
value. -/
def roleFilter (userId : Nat) (role : String) (c : Conversation) : Bool :=
  if role == "buyer" then c.buyer_id == userId
  else if role == "manufacturer" then c.manufacturer_id == userId
  else true

/-- The keyset cursor of listConversations (ConversationRepository.js:76-78):
`lt('last_message_at', cursor)`; a SQL comparison against NULL is not
satisfied, so rows without `last_message_at` are excluded. -/
def cursorFilter (cursor : Option Nat) (c : Conversation) : Bool :=
  match cursor with
  | none => true
  | some t =>
      match c.last_message_at with
      | some x => decide (x < t)
      | none => false

/-- The search filter of listConversations (ConversationRepository.js:80-82):
applied only when the search string is nonempty after trimming, as a
case-insensitive substring match of the trimmed string against
`last_message_text` (NULL never matches). -/
def searchFilter : Option String → Conversation → Bool
  | none, _ => true
  | some q, c =>
      if 0 < q.trim.length then
        match c.last_message_text with
        | some txt => containsCI txt q.trim
        | none => false
      else true

/-- A listConversations result row: the conversation enriched with the
caller's unread count.  The peer-profile enrichment reads the
buyer/manufacturer profile tables, which are outside the modelled chat
store and observed by no claim, so it is not modelled. -/
structure ConversationView where
  conversation : Conversation
  unread_count : Nat
deriving DecidableEq, Repr

/-- The batch unread count of listConversations
(ConversationRepository.js:97-113) restricted to one conversation: its
messages that are unread and not sent by the caller. -/
def unreadCount (s : Store) (userId cid : Nat) : Nat :=
  (s.messages.filter (fun m =>
    m.conversation_id == cid && m.is_read == false && m.sender_id != userId)).length

/-- Embeds `ConversationRepository.listConversations`
(ConversationRepository.js:59-171): filter by role participant, cursor and
search, order by (`last_message_at` desc nulls last, `created_at` desc),
page with `range(offset, offset + limit - 1)`, and enrich each row with the
caller's unread count. -/
def listConversations (s : Store) (userId : Nat) (role : String)
    (search : Option String) (cursor : Option Nat) (limit offset : Nat) :
    List ConversationView :=
  ((((s.conversations.filter (fun c =>
        roleFilter userId role c && cursorFilter cursor c && searchFilter search c)).mergeSort
          convLE).drop offset).take limit).map
    (fun c => { conversation := c, unread_count := unreadCount s userId c.id })

/-- Sample conversation between buyer 1 and manufacturer 2, for C7. -/
def conv7 : Conversation :=
  { id := 0, buyer_id := 1, manufacturer_id := 2, created_at := 0,
    last_message_at := none, last_message_text := none, is_archived := false }

/-- Sample store holding just `conv7`. -/
def store7 : Store := { conversations := [conv7], messages := [], attachments := [] }

/-- An attachment object as supplied in a gateway send-message payload
(url plus metadata; only the columns persisted by schema.sql are kept). -/
structure AttachmentInput where
  url : String
  mimeType : Option String
  size : Option Nat
deriving DecidableEq, Repr

/-- Embeds `ConversationRepository.insertMessageAttachments`
(ConversationRepository.js:241-275): no-op on empty input, otherwise a bulk
insert of one attachment row per input; row ids are database-generated
(`firstId` onwards as oracles). -/
def insertMessageAttachments (s : Store) (messageId : Nat)
    (atts : List AttachmentInput) (firstId : Nat) :
    Store × List MessageAttachment :=
  if atts.isEmpty then (s, [])
  else
    let recs := atts.enum.map (fun p =>
      { id := firstId + p.1, message_id := messageId, file_url := p.2.url,
        mime_type := p.2.mimeType, size_bytes := p.2.size })
    ({ s with attachments := s.attachments ++ recs }, recs)

/-- The payload of a `message:send` gateway event (every field may be
absent in the client-supplied object). -/
structure SendPayload where
  conversationId : Option Nat
  body : Option String
  clientTempId : Option String
  attachments : Option (List AttachmentInput)
  requirementId : Option Nat
  aiDesignId : Option Nat
deriving DecidableEq, Repr

/-- Embeds `ConversationRepository.getConversation`
(ConversationRepository.js:176-186): fetch a conversation row by id
(`none` models the not-found error the gateway handlers catch and drop). -/
def getConversationById (s : Store) (cid : Nat) : Option Conversation :=
  s.conversations.find? (fun c => c.id == cid)

/-- The participancy check of the gateway handlers (server entry file):
buyer role must match `buyer_id`, manufacturer role must match
`manufacturer_id`. -/
def isParticipant (role : String) (userId : Nat) (c : Conversation) : Bool :=
  (role == "buyer" && c.buyer_id == userId)
    || (role == "manufacturer" && c.manufacturer_id == userId)

/-- The `hasBody` guard of the send handler: a string body that is nonempty
after trimming. -/
def hasBody : Option String → Bool
  | some b => decide (0 < b.trim.length)
  | none => false

/-- The `hasAttachments` guard of the send handler: a nonempty array. -/
def hasAttachments : Option (List AttachmentInput) → Bool
  | some l => decide (0 < l.length)
  | none => false

/-- The suffix after the first `'>'` of the list, if any. -/
def afterFirstGt (l : List Char) : Option (List Char) :=
  match l.dropWhile (fun c => c != '>') with
  | [] => none
  | _ :: rest => some rest

/-- Dropping one `<[^>]*>` span shortens the text. -/
theorem afterFirstGt_length {l l' : List Char} (h : afterFirstGt l = some l') :
    l'.length < l.length + 1 := by
  unfold afterFirstGt at h
  cases hd : l.dropWhile (fun c => c != '>') with
  | nil =>
    rw [hd] at h
    exact absurd h (by simp)
  | cons a tl =>
    rw [hd] at h
    injection h with h'
    subst h'
    have hsub : List.Sublist (l.dropWhile (fun c => c != '>')) l :=
      (List.dropWhile_suffix (fun c => c != '>')).sublist
    have hle := hsub.length_le
    rw [hd] at hle
    simp at hle
    omega

/-- The `body.replace(/<[^>]*>/g, '')` sanitization of the send handler:
each `'<'` with a later `'>'` is removed together with everything up to
that `'>'`; a `'<'` with no closing `'>'` is kept. -/
def stripTags : List Char → List Char
  | [] => []
  | c :: rest =>
      if c = '<' then
        match h : afterFirstGt rest with
        | some rest' => stripTags rest'
        | none => c :: stripTags rest
      else c :: stripTags rest
termination_by l => l.length
decreasing_by
  · exact afterFirstGt_length h
  · simp
  · simp

/-- Modelled from the spec: `buildMessageSummary` lives in
src/utils/messageSummary.js, which is not among the sources.  Per the spec
it derives a human-readable summary from body plus attachments, with a
non-empty placeholder (e.g. indicating a photo) when the body is empty but
an attachment exists, so conversation previews are never blank. -/
def buildMessageSummary (body : String) (atts : List AttachmentInput) : String :=
  if 0 < body.trim.length then body
  else if 0 < atts.length then "Photo"
  else ""

/-- The `message:new` broadcast of the send handler: the hydrated message
plus the refreshed conversation-summary snapshot. -/
structure MessageNewEvent where
  message : Message
  attachments : List MessageAttachment
  summary_id : Nat
  summary_last_message_at : Option Nat
  summary_last_message_text : Option String
  summary_is_archived : Bool
deriving DecidableEq, Repr

/-- The `message:send` gateway handler (server entry file, the
`socket.on('message:send')` block): validate conversation id, body or
attachments, conversation existence and participancy — dropping the event
silently on any failure — then sanitize the body (strip markup, cap at
4000), build the summary, insert message and attachments, re-fetch the
conversation and emit the broadcast.  Store errors are caught and dropped
(the error branches); the fresh row ids and NOW() are oracle arguments.
This is the stage after the guards below have passed. -/
def onMessageSendParticipant (s : Store) (userId : Nat) (role : String)
    (cid : Nat) (convo : Conversation) (p : SendPayload)
    (newMessageId firstAttachmentId now : Nat) : Store × Option MessageNewEvent :=
  if !(isParticipant role userId convo) then (s, none)
  else
    let sanitized := if hasBody p.body then
        String.mk ((stripTags (p.body.getD "").data).take 4000)
      else ""
    let attList := if hasAttachments p.attachments then p.attachments.getD [] else []
    let summaryText := buildMessageSummary sanitized attList
    match insertMessage s cid role userId sanitized p.clientTempId
        (some summaryText) p.requirementId p.aiDesignId newMessageId now
        true true with
    | .error _ => (s, none)
    | .ok (s1, msg) =>
      match insertMessageAttachments s1 msg.id attList firstAttachmentId with
      | (s2, recs) =>
        match getConversationById s2 cid with
        | none => (s2, none)
        | some refreshed =>
          (s2, some { message := msg, attachments := recs,
                      summary_id := refreshed.id,
                      summary_last_message_at := refreshed.last_message_at,
                      summary_last_message_text := refreshed.last_message_text,
                      summary_is_archived := refreshed.is_archived })

/-- The body/attachments, conversation-existence and participancy stages of
the send handler, after the conversation id has been read. -/
def onMessageSendChecked (s : Store) (userId : Nat) (role : String)
    (cid : Nat) (p : SendPayload) (newMessageId firstAttachmentId now : Nat) :
    Store × Option MessageNewEvent :=
  if !(hasBody p.body || hasAttachments p.attachments) then (s, none)
  else
    match getConversationById s cid with
    | none => (s, none)
    | some convo =>
      onMessageSendParticipant s userId role cid convo p
        newMessageId firstAttachmentId now

/-- Entry point of the send handler: a missing conversation id drops the
event before anything else. -/
def onMessageSend (s : Store) (userId : Nat) (role : String) (p : SendPayload)
    (newMessageId firstAttachmentId now : Nat) : Store × Option MessageNewEvent :=
  match p.conversationId with
  | none => (s, none)
  | some cid =>
      onMessageSendChecked s userId role cid p newMessageId firstAttachmentId now

/-- Sample invalid send payload: no conversation id. -/
def pay8 : SendPayload :=
  { conversationId := none, body := some "hi", clientTempId := none,
    attachments := none, requirementId := none, aiDesignId := none }

/-- The message lookup of the read handler (`select('created_at').eq('id',
upToMessageId).single()` in the server entry file). -/
def findMessageById (s : Store) (mid : Nat) : Option Message :=
  s.messages.find? (fun m => m.id == mid)

/-- The `message:read` broadcast: conversation, reader, the client-supplied
message id, and the resolved cutoff (`at` on the wire). -/
structure ReadReceiptEvent where
  conversationId : Nat
  readerUserId : Nat
  upToMessageId : Option Nat
  receiptAt : Nat
deriving DecidableEq, Repr

/-- The cutoff resolution of the `message:read` gateway handler (server
entry file): the referenced message's creation time when the row can be
fetched, the current time otherwise (also when no `upToMessageId` is
supplied). -/
def resolveUpTo : Store → Option Nat → Nat → Nat
  | s, some mid, now =>
      match findMessageById s mid with
      | some msg => msg.created_at
      | none => now
  | _, none, now => now

/-- The participancy-passed stage of the read handler: resolve the cutoff,
apply markRead, broadcast the receipt. -/
def onMessageReadParticipant (s : Store) (userId : Nat) (role : String)
    (cid : Nat) (convo : Conversation) (upToMessageId : Option Nat) (now : Nat) :
    Store × Option ReadReceiptEvent :=
  if !(isParticipant role userId convo) then (s, none)
  else
    let upTo := resolveUpTo s upToMessageId now
    ((markRead s cid userId upTo).1,
     some { conversationId := cid, readerUserId := userId,
            upToMessageId := upToMessageId, receiptAt := upTo })

/-- The conversation-existence stage of the read handler. -/
def onMessageReadConv (s : Store) (userId : Nat) (role : String) (cid : Nat)
    (upToMessageId : Option Nat) (now : Nat) : Store × Option ReadReceiptEvent :=
  match getConversationById s cid with
  | none => (s, none)
  | some convo => onMessageReadParticipant s userId role cid convo upToMessageId now

/-- Entry point of the read handler: a missing conversation id drops the
event. -/
def onMessageRead (s : Store) (userId : Nat) (role : String)
    (conversationId upToMessageId : Option Nat) (now : Nat) :
    Store × Option ReadReceiptEvent :=
  match conversationId with
  | none => (s, none)
  | some cid => onMessageReadConv s userId role cid upToMessageId now

/-- Embeds `onlineCounts.get(userId) || 0` on the in-memory presence map (the map
is modelled as an association list in insertion order). -/
def presenceGet (m : List (Nat × Nat)) (u : Nat) : Nat :=
  match m.find? (fun e => e.1 == u) with
  | some e => e.2
  | none => 0

/-- Embeds `onlineCounts.set(userId, v)`: replace the existing entry, else append. -/
def presenceSet (m : List (Nat × Nat)) (u v : Nat) : List (Nat × Nat) :=
  if (m.find? (fun e => e.1 == u)).isSome then
    m.map (fun e => if e.1 == u then (u, v) else e)
  else m ++ [(u, v)]

/-- Embeds `onlineCounts.delete(userId)`. -/
def presenceDelete (m : List (Nat × Nat)) (u : Nat) : List (Nat × Nat) :=
  m.filter (fun e => e.1 != u)

/-- The presence increment of the connection handler (server entry file):
`onlineCounts.set(userId, previousCount + 1)`. -/
def onConnect (m : List (Nat × Nat)) (u : Nat) : List (Nat × Nat) :=
  presenceSet m u (presenceGet m u + 1)

/-- The disconnect handler (server entry file, `socket.on('disconnect')`):
with current count at most 1 the entry is deleted and the offline presence
signal is emitted (the boolean); otherwise the count is decremented and
nothing is emitted. -/
def onDisconnect (m : List (Nat × Nat)) (u : Nat) : List (Nat × Nat) × Bool :=
  if presenceGet m u ≤ 1 then (presenceDelete m u, true)
  else (presenceSet m u (presenceGet m u - 1), false)

/-- Claim C1: for every conversation, reader and timestamp, markRead sets
`is_read` to true exactly on the messages of that conversation created
strictly before the cutoff and not sent by the reader, leaves every other
message (and the conversations table) unchanged, and returns the number of
messages matched by that filter. -/
theorem markRead_spec (s : Store) (cid reader upTo : Nat) :
    ((markRead s cid reader upTo).1).conversations = s.conversations
      ∧ ((markRead s cid reader upTo).1).messages.length = s.messages.length
      ∧ (∀ (k : Nat) (m : Message), s.messages[k]? = some m →
          ((markRead s cid reader upTo).1).messages[k]? =
            some (if matchesMarkRead cid reader upTo m then { m with is_read := true } else m))
      ∧ (markRead s cid reader upTo).2
          = (s.messages.filter (matchesMarkRead cid reader upTo)).length := by
  refine ⟨rfl, by simp [markRead], ?_, rfl⟩
  intro k m hk
  simp [markRead, List.getElem?_map, hk, applyMarkRead]

/-- Witness for C1 at a concrete store: the single message of `storeA`
matches the filter for reader 7 and cutoff 4, so it is flipped to read. -/
theorem markRead_spec_witness :
    (markRead storeA 0 7 4).1.messages[0]? = some { msgA with is_read := true } := by
  have h := (markRead_spec storeA 0 7 4).2.2.1 0 msgA rfl
  rw [if_pos (by decide : matchesMarkRead 0 7 4 msgA = true)] at h
  exact h

/-- Counterexample to claim C2 as stated: after `markRead storeA 0 7 4` has
already flipped the only matching message to read, calling markRead again
with the same timestamp reports 1 affected row, not 0, because the update
filter does not exclude rows that are already read. -/
theorem markRead_idem_counterexample :
    (markRead (markRead storeA 0 7 4).1 0 7 4).2 ≠ 0 := by decide

/-- The filter is monotone in the cutoff. -/
theorem matchesMarkRead_mono (cid reader T T' : Nat) (m : Message)
    (hT : T' ≤ T) (h : matchesMarkRead cid reader T' m = true) :
    matchesMarkRead cid reader T m = true := by
  simp only [matchesMarkRead, Bool.and_eq_true, decide_eq_true_eq] at h ⊢
  exact ⟨⟨h.1.1, lt_of_lt_of_le h.1.2 hT⟩, h.2⟩

/-- The filter ignores `is_read`, so applying the markRead update to a row
does not change whether the row matches any markRead filter. -/
theorem matchesMarkRead_applyMarkRead (cid reader T cid' reader' T' : Nat) (m : Message) :
    matchesMarkRead cid reader T (applyMarkRead cid' reader' T' m)
      = matchesMarkRead cid reader T m := by
  unfold applyMarkRead
  split <;> simp [matchesMarkRead]

/-- If the filter matches, the markRead update flips `is_read` to true. -/
theorem applyMarkRead_pos (cid reader T : Nat) (m : Message)
    (h : matchesMarkRead cid reader T m = true) :
    applyMarkRead cid reader T m = { m with is_read := true } := by
  simp [applyMarkRead, h]

/-- If the filter does not match, the markRead update leaves the row alone. -/
theorem applyMarkRead_neg (cid reader T : Nat) (m : Message)
    (h : matchesMarkRead cid reader T m = false) :
    applyMarkRead cid reader T m = m := by
  simp [applyMarkRead, h]

/-- Re-applying the markRead update with the same or an earlier cutoff is
the identity on a row already updated with the later cutoff. -/
theorem applyMarkRead_idem (cid reader T T' : Nat) (m : Message) (hT : T' ≤ T) :
    applyMarkRead cid reader T' (applyMarkRead cid reader T m)
      = applyMarkRead cid reader T m := by
  cases h' : matchesMarkRead cid reader T' m with
  | false =>
    have hm : matchesMarkRead cid reader T' (applyMarkRead cid reader T m) = false := by
      rw [matchesMarkRead_applyMarkRead]; exact h'
    rw [applyMarkRead_neg cid reader T' _ hm]
  | true =>
    have h : matchesMarkRead cid reader T m = true :=
      matchesMarkRead_mono cid reader T T' m hT h'
    have hm : matchesMarkRead cid reader T' (applyMarkRead cid reader T m) = true := by
      rw [matchesMarkRead_applyMarkRead]; exact h'
    rw [applyMarkRead_pos cid reader T' _ hm, applyMarkRead_pos cid reader T m h]

/-- Claim C2, amended: a second markRead with the same or an earlier
timestamp leaves the store unchanged (idempotence of the state), but its
reported count is again the number of messages matching the filter — the
same count as a first call with that timestamp would report — not zero. -/
theorem markRead_idem (s : Store) (cid reader T T' : Nat) (hT : T' ≤ T) :
    (markRead (markRead s cid reader T).1 cid reader T').1 = (markRead s cid reader T).1
      ∧ (markRead (markRead s cid reader T).1 cid reader T').2
          = (s.messages.filter (matchesMarkRead cid reader T')).length := by
  constructor
  · show ({ s with messages := (s.messages.map (applyMarkRead cid reader T)).map (applyMarkRead cid reader T') } : Store)
        = { s with messages := s.messages.map (applyMarkRead cid reader T) }
    have hmm : (s.messages.map (applyMarkRead cid reader T)).map (applyMarkRead cid reader T')
        = s.messages.map (applyMarkRead cid reader T) := by
      rw [List.map_map]
      refine List.map_congr_left ?_
      intro m _
      exact applyMarkRead_idem cid reader T T' m hT
    rw [hmm]
  · show ((s.messages.map (applyMarkRead cid reader T)).filter (matchesMarkRead cid reader T')).length
        = (s.messages.filter (matchesMarkRead cid reader T')).length
    rw [List.filter_map]
    rw [List.length_map]
    congr 1
    refine List.filter_congr ?_
    intro m _
    exact matchesMarkRead_applyMarkRead cid reader T' cid reader T m

/-- Witness for the amended C2 at a concrete store: repeating markRead with
an earlier timestamp leaves the store unchanged. -/
theorem markRead_idem_witness :
    (markRead (markRead storeA 0 7 4).1 0 7 3).1 = (markRead storeA 0 7 4).1 :=
  (markRead_idem storeA 0 7 4 3 (by decide)).1

/-- Claim C3: with the message insert succeeding and the subsequent
conversation-summary update failing, insertMessage still returns `.ok` with
the inserted message (the failure is only logged): the message row stands
appended to the message log, and no other table is touched. -/
theorem insertMessage_summary_failure (s : Store) (conversationId : Nat)
    (senderRole : String) (senderId : Nat) (body : String)
    (clientTempId : Option String) (summaryText : Option String)
    (requirementId aiDesignId : Option Nat) (newId createdAt : Nat) :
    ∃ st msg,
      insertMessage s conversationId senderRole senderId body clientTempId
          summaryText requirementId aiDesignId newId createdAt true false
        = .ok (st, msg)
      ∧ st.messages = s.messages ++ [msg]
      ∧ st.conversations = s.conversations
      ∧ st.attachments = s.attachments
      ∧ msg.conversation_id = conversationId
      ∧ msg.sender_id = senderId
      ∧ msg.body = body :=
  ⟨_, _, rfl, rfl, rfl, rfl, rfl, rfl, rfl⟩

/-- The summary update preserves every row's id. -/
theorem summaryUpd_id (cid t : Nat) (txt : String) (c : Conversation) :
    (summaryUpd cid t txt c).id = c.id := by
  unfold summaryUpd
  split <;> rfl

/-- Looking up a conversation by id after the summary update finds the same
row with the two summary fields rewritten. -/
theorem find?_summaryUpd (l : List Conversation) (cid t : Nat) (txt : String)
    (c : Conversation) (h : l.find? (fun cv => cv.id == cid) = some c) :
    (l.map (summaryUpd cid t txt)).find? (fun cv => cv.id == cid)
      = some { c with last_message_at := some t, last_message_text := some txt } := by
  rw [List.find?_map]
  have hp : ((fun cv => cv.id == cid) ∘ (summaryUpd cid t txt))
      = (fun cv => cv.id == cid) := by
    funext cv
    simp [Function.comp, summaryUpd_id]
  rw [hp, h]
  have hc : (c.id == cid) = true := by
    have h2 := List.find?_some h
    simpa using h2
  show some (summaryUpd cid t txt c) = _
  simp [summaryUpd, hc]

/-- One successful insert rewrites the parent conversation's summary fields
to that call's creation time and summary text (with body fallback). -/
theorem applyInsert_find (s : Store) (cid : Nat) (a : InsertCall)
    (c : Conversation)
    (h : s.conversations.find? (fun cv => cv.id == cid) = some c) :
    (applyInsert s cid a).conversations.find? (fun cv => cv.id == cid)
      = some { c with last_message_at := some a.createdAt,
                      last_message_text := some (a.summaryText.getD a.body) } := by
  show (s.conversations.map (summaryUpd cid a.createdAt (a.summaryText.getD a.body))).find?
      (fun cv => cv.id == cid) = _
  exact find?_summaryUpd s.conversations cid a.createdAt (a.summaryText.getD a.body) c h

/-- After a nonempty sequence of successful inserts, the conversation's
summary fields are those of the final call of the sequence. -/
theorem applyInserts_cons_find (cid : Nat) :
    ∀ (rest : List InsertCall) (a : InsertCall) (s : Store) (c0 : Conversation),
      s.conversations.find? (fun cv => cv.id == cid) = some c0 →
      ∃ c, (applyInserts s cid (a :: rest)).conversations.find?
              (fun cv => cv.id == cid) = some c
        ∧ c.last_message_at = some ((a :: rest).getLast (by simp)).createdAt
        ∧ c.last_message_text
            = some (((a :: rest).getLast (by simp)).summaryText.getD
                ((a :: rest).getLast (by simp)).body) := by
  intro rest
  induction rest with
  | nil =>
    intro a s c0 h
    exact ⟨_, applyInsert_find s cid a c0 h, rfl, rfl⟩
  | cons b rest' ih =>
    intro a s c0 h
    have hstep := applyInsert_find s cid a c0 h
    have hrec := ih b (applyInsert s cid a) _ hstep
    obtain ⟨c, hc, h1, h2⟩ := hrec
    refine ⟨c, ?_, ?_, ?_⟩
    · exact hc
    · rw [List.getLast_cons (by simp : (b :: rest') ≠ [])]
      exact h1
    · rw [List.getLast_cons (by simp : (b :: rest') ≠ [])]
      exact h2

/-- Claim C4: for every sequence of successful insertMessage calls into one
conversation (timestamps strictly increasing in call order, so the last call
is the chronologically last message), the conversation's `last_message_at`
ends up equal to the last call's creation time and `last_message_text` to
that call's summary text, falling back to its raw body when absent. -/
theorem insertMessage_sequence_summary (s : Store) (cid : Nat)
    (calls : List InsertCall) (hne : calls ≠ [])
    (hchron : List.Chain' (fun a b => a.createdAt < b.createdAt) calls)
    (hconv : ∃ c0, s.conversations.find? (fun cv => cv.id == cid) = some c0) :
    ∃ c, (applyInserts s cid calls).conversations.find?
            (fun cv => cv.id == cid) = some c
      ∧ c.last_message_at = some (calls.getLast hne).createdAt
      ∧ c.last_message_text
          = some ((calls.getLast hne).summaryText.getD (calls.getLast hne).body) := by
  obtain ⟨c0, hc0⟩ := hconv
  cases calls with
  | nil => exact absurd rfl hne
  | cons a rest => exact applyInserts_cons_find cid rest a s c0 hc0

/-- Witness for C4 at a concrete store: one insert of "Hello" (no summary
text supplied) into `convB` makes the summary show "Hello" at time 6. -/
theorem insertMessage_sequence_summary_witness :
    ∃ c, (applyInserts storeB 4 [callB]).conversations.find?
            (fun cv => cv.id == 4) = some c
      ∧ c.last_message_at = some 6
      ∧ c.last_message_text = some "Hello" := by
  have h := insertMessage_sequence_summary storeB 4 [callB] (by simp)
      (by simp) ⟨convB, by rfl⟩
  exact h


/-- A successful pair lookup returns a row carrying exactly that pair. -/
theorem findConvPair_some (s : Store) (b m : Nat) (c : Conversation)
    (h : findConvPair s b m = some c) : c.buyer_id = b ∧ c.manufacturer_id = m := by
  unfold findConvPair at h
  have h2 := List.find?_some h
  simpa using h2

/-- Appending a row whose pair is absent preserves pair uniqueness. -/
theorem pairUnique_append (l : List Conversation) (c : Conversation)
    (hu : l.Pairwise ConvDistinct)
    (h : l.find? (fun cv => cv.buyer_id == c.buyer_id
          && cv.manufacturer_id == c.manufacturer_id) = none) :
    (l ++ [c]).Pairwise ConvDistinct := by
  rw [List.pairwise_append]
  refine ⟨hu, List.pairwise_singleton _ _, ?_⟩
  intro a ha b hb
  rw [List.mem_singleton] at hb
  subst hb
  have hnone := List.find?_eq_none.mp h a ha
  intro hcon
  exact hnone (by simp [hcon.1, hcon.2])

/-- When no row for the pair exists at insert time, the race tail inserts
and returns the fresh row. -/
theorem getOrCreateRace_none (s1 : Store) (b m newId t : Nat)
    (h : findConvPair s1 b m = none) :
    getOrCreateRace s1 b m newId t
      = .ok ({ s1 with conversations := s1.conversations ++ [mkConversation b m newId t] },
             mkConversation b m newId t) := by
  unfold getOrCreateRace insertConversation
  rw [h]

/-- When a row for the pair exists at insert time, the insert conflicts and
the race tail re-reads and returns that row. -/
theorem getOrCreateRace_some (s1 : Store) (b m newId t : Nat) (c : Conversation)
    (h : findConvPair s1 b m = some c) :
    getOrCreateRace s1 b m newId t = .ok (s1, c) := by
  unfold getOrCreateRace insertConversation
  rw [h]

/-- Claim C5: under the pair-uniqueness invariant, and with any concurrent
creation that itself respected the constraint, getOrCreateConversation
returns `.ok`; the returned row carries the requested pair, is the row the
final store holds for that pair, pair uniqueness is preserved, and a
pre-existing row for the pair is returned unchanged — so every caller
receives the same canonical conversation. -/
theorem getOrCreateConversation_canonical (s : Store) (b m newId t : Nat)
    (raced : Option Conversation) (hu : pairUnique s)
    (hr : ∀ rc, raced = some rc → findConvPair s rc.buyer_id rc.manufacturer_id = none) :
    (getOrCreateConversation s b m raced newId t).toOption.isSome = true
      ∧ ∀ s' c, getOrCreateConversation s b m raced newId t = .ok (s', c) →
          c.buyer_id = b ∧ c.manufacturer_id = m
            ∧ findConvPair s' b m = some c ∧ pairUnique s'
            ∧ (∀ c0, findConvPair s b m = some c0 → c = c0) := by
  cases hfind : findConvPair s b m with
  | some c =>
    have hres : getOrCreateConversation s b m raced newId t = .ok (s, c) := by
      unfold getOrCreateConversation
      rw [hfind]
    rw [hres]
    refine ⟨rfl, ?_⟩
    intro s' c' heq
    injection heq with h2
    injection h2 with hA hB
    subst hA
    subst hB
    obtain ⟨hb2, hm2⟩ := findConvPair_some s b m c hfind
    refine ⟨hb2, hm2, hfind, hu, ?_⟩
    intro c0 h0
    injection h0 with h0'
  | none =>
    have hfindL : s.conversations.find?
        (fun cv => cv.buyer_id == b && cv.manufacturer_id == m) = none := hfind
    cases raced with
    | none =>
      have hres : getOrCreateConversation s b m none newId t
          = .ok ({ s with conversations :=
                    s.conversations ++ [mkConversation b m newId t] },
                 mkConversation b m newId t) := by
        unfold getOrCreateConversation
        rw [hfind]
        exact getOrCreateRace_none s b m newId t hfind
      rw [hres]
      refine ⟨rfl, ?_⟩
      intro s' c' heq
      injection heq with h2
      injection h2 with hA hB
      subst hA
      subst hB
      refine ⟨rfl, rfl, ?_, ?_, ?_⟩
      · show (s.conversations ++ [mkConversation b m newId t]).find?
            (fun cv => cv.buyer_id == b && cv.manufacturer_id == m)
            = some (mkConversation b m newId t)
        rw [List.find?_append, hfindL]
        simp [mkConversation]
      · exact pairUnique_append s.conversations (mkConversation b m newId t) hu hfindL
      · intro c0 h0
        exact absurd h0 (by simp)
    | some rc =>
      have hrc := hr rc rfl
      have hrcL : s.conversations.find?
          (fun cv => cv.buyer_id == rc.buyer_id
            && cv.manufacturer_id == rc.manufacturer_id) = none := hrc
      by_cases hprc : (rc.buyer_id == b && rc.manufacturer_id == m) = true
      · have hfind1 : findConvPair
            { s with conversations := s.conversations ++ [rc] } b m = some rc := by
          show (s.conversations ++ [rc]).find?
              (fun cv => cv.buyer_id == b && cv.manufacturer_id == m) = some rc
          rw [List.find?_append, hfindL]
          simp [hprc]
        have hres : getOrCreateConversation s b m (some rc) newId t
            = .ok ({ s with conversations := s.conversations ++ [rc] }, rc) := by
          unfold getOrCreateConversation
          rw [hfind]
          exact getOrCreateRace_some _ b m newId t rc hfind1
        rw [hres]
        refine ⟨rfl, ?_⟩
        intro s' c' heq
        injection heq with h2
        injection h2 with hA hB
        subst hA
        subst hB
        have hprc2 : rc.buyer_id = b ∧ rc.manufacturer_id = m := by simpa using hprc
        refine ⟨hprc2.1, hprc2.2, hfind1, ?_, ?_⟩
        · exact pairUnique_append s.conversations rc hu hrcL
        · intro c0 h0
          exact absurd h0 (by simp)
      · have hprc' : (rc.buyer_id == b && rc.manufacturer_id == m) = false := by
          simpa using hprc
        have hfind1 : findConvPair
            { s with conversations := s.conversations ++ [rc] } b m = none := by
          show (s.conversations ++ [rc]).find?
              (fun cv => cv.buyer_id == b && cv.manufacturer_id == m) = none
          rw [List.find?_append, hfindL]
          simp [hprc']
        have hfind1L : (s.conversations ++ [rc]).find?
            (fun cv => cv.buyer_id == b && cv.manufacturer_id == m) = none := hfind1
        have hres : getOrCreateConversation s b m (some rc) newId t
            = .ok ({ s with conversations :=
                      (s.conversations ++ [rc]) ++ [mkConversation b m newId t] },
                   mkConversation b m newId t) := by
          unfold getOrCreateConversation
          rw [hfind]
          exact getOrCreateRace_none _ b m newId t hfind1
        rw [hres]
        refine ⟨rfl, ?_⟩
        intro s' c' heq
        injection heq with h2
        injection h2 with hA hB
        subst hA
        subst hB
        refine ⟨rfl, rfl, ?_, ?_, ?_⟩
        · show ((s.conversations ++ [rc]) ++ [mkConversation b m newId t]).find?
              (fun cv => cv.buyer_id == b && cv.manufacturer_id == m)
              = some (mkConversation b m newId t)
          rw [List.find?_append, hfind1L]
          simp [mkConversation]
        · exact pairUnique_append (s.conversations ++ [rc]) (mkConversation b m newId t)
            (pairUnique_append s.conversations rc hu hrcL) hfind1L
        · intro c0 h0
          exact absurd h0 (by simp)

/-- Witness for C5: on an empty store with no interleaving, the call
creates and returns the canonical row for pair (1, 2). -/
theorem getOrCreateConversation_canonical_witness :
    convE.buyer_id = 1 ∧ convE.manufacturer_id = 2
      ∧ findConvPair storeF 1 2 = some convE
      ∧ pairUnique storeF
      ∧ (∀ c0, findConvPair storeE 1 2 = some c0 → convE = c0) := by
  refine (getOrCreateConversation_canonical storeE 1 2 7 3 none ?_ ?_).2 storeF convE ?_
  · exact List.Pairwise.nil
  · intro rc h
    simp at h
  · rfl

/-- A position that holds a message keeps holding one after any single
operation: its `is_read` can only go from false to true and its sender is
unchanged. -/
theorem applyOp_getElem? (s : Store) (op : StoreOp) (k : Nat) (m : Message)
    (h : s.messages[k]? = some m) :
    ∃ m', (applyOp s op).messages[k]? = some m'
      ∧ (m.is_read = true → m'.is_read = true)
      ∧ m'.sender_id = m.sender_id := by
  have hk : k < s.messages.length := by
    by_contra hk
    rw [List.getElem?_eq_none (by omega)] at h
    exact Option.noConfusion h
  cases op with
  | opMarkRead cid r T =>
    refine ⟨applyMarkRead cid r T m, ?_, ?_, ?_⟩
    · show (s.messages.map (applyMarkRead cid r T))[k]? = _
      rw [List.getElem?_map, h]
      rfl
    · intro hm
      unfold applyMarkRead
      split
      · rfl
      · exact hm
    · unfold applyMarkRead
      split <;> rfl
  | opInsert cid c ok1 ok2 =>
    cases ok1 with
    | false => exact ⟨m, h, fun hm => hm, rfl⟩
    | true =>
      cases ok2 with
      | true =>
        refine ⟨m, ?_, fun hm => hm, rfl⟩
        show (s.messages ++ [mkMessage cid c.senderRole c.senderId c.body
            c.clientTempId c.requirementId c.aiDesignId c.newId c.createdAt])[k]?
          = some m
        rw [List.getElem?_append, if_pos hk]
        exact h
      | false =>
        refine ⟨m, ?_, fun hm => hm, rfl⟩
        show (s.messages ++ [mkMessage cid c.senderRole c.senderId c.body
            c.clientTempId c.requirementId c.aiDesignId c.newId c.createdAt])[k]?
          = some m
        rw [List.getElem?_append, if_pos hk]
        exact h

/-- Lemma `applyOp_getElem?` lifted to a whole sequence of operations. -/
theorem applyOps_getElem? (ops : List StoreOp) :
    ∀ (s : Store) (k : Nat) (m : Message),
      s.messages[k]? = some m →
      ∃ m', (applyOps s ops).messages[k]? = some m'
        ∧ (m.is_read = true → m'.is_read = true)
        ∧ m'.sender_id = m.sender_id := by
  induction ops with
  | nil =>
    intro s k m h
    exact ⟨m, h, fun hm => hm, rfl⟩
  | cons op ops ih =>
    intro s k m h
    obtain ⟨m1, h1, hmono1, hsid1⟩ := applyOp_getElem? s op k m h
    obtain ⟨m2, h2, hmono2, hsid2⟩ := ih (applyOp s op) k m1 h1
    exact ⟨m2, h2, fun hm => hmono2 (hmono1 hm), hsid2.trans hsid1⟩

/-- markRead leaves every message whose sender is the reader untouched. -/
theorem markRead_sender_unchanged (s : Store) (cid r T k : Nat) (m : Message)
    (h : s.messages[k]? = some m) (hs : m.sender_id = r) :
    ((markRead s cid r T).1).messages[k]? = some m := by
  show (s.messages.map (applyMarkRead cid r T))[k]? = some m
  rw [List.getElem?_map, h]
  show some (applyMarkRead cid r T m) = some m
  have hmatch : matchesMarkRead cid r T m = false := by
    simp [matchesMarkRead, hs]
  rw [applyMarkRead_neg cid r T m hmatch]

/-- Claim C6: across every sequence of store operations, a message's
`is_read` flag only ever transitions false→true (once true it stays true)
and its sender is never rewritten; and no markRead call whose reader equals
a message's sender changes that message at all. -/
theorem message_read_flag_monotone :
    (∀ (ops : List StoreOp) (s : Store) (k : Nat) (m m' : Message),
        s.messages[k]? = some m → (applyOps s ops).messages[k]? = some m' →
          (m.is_read = true → m'.is_read = true) ∧ m'.sender_id = m.sender_id)
      ∧ (∀ (s : Store) (cid r T k : Nat) (m : Message),
          s.messages[k]? = some m → m.sender_id = r →
            ((markRead s cid r T).1).messages[k]? = some m) := by
  constructor
  · intro ops s k m m' h h'
    obtain ⟨m2, h2, hmono, hsid⟩ := applyOps_getElem? ops s k m h
    rw [h2] at h'
    injection h' with h''
    exact h'' ▸ ⟨hmono, hsid⟩
  · intro s cid r T k m h hs
    exact markRead_sender_unchanged s cid r T k m h hs

/-- Witness for C6: in `storeC` the already-read message from sender 7
keeps `is_read = true` and its sender across a markRead by reader 9. -/
theorem message_read_flag_monotone_witness :
    (msgRead.is_read = true → msgRead.is_read = true)
      ∧ msgRead.sender_id = msgRead.sender_id :=
  message_read_flag_monotone.1 [StoreOp.opMarkRead 0 9 99] storeC 0 msgRead msgRead
    rfl (by rfl)

/-- The order used by listConversations is total. -/
theorem tsLE_total (oa ob : Option Nat) (ca cb : Nat) :
    (tsLE oa ob ca cb || tsLE ob oa cb ca) = true := by
  cases oa with
  | none =>
    cases ob with
    | none =>
      simp only [tsLE, Bool.or_eq_true, decide_eq_true_eq]
      omega
    | some y => simp [tsLE]
  | some x =>
    cases ob with
    | none => simp [tsLE]
    | some y =>
      simp only [tsLE]
      by_cases hxy : x = y
      · subst hxy
        rw [if_pos rfl, if_pos rfl]
        simp only [Bool.or_eq_true, decide_eq_true_eq]
        omega
      · rw [if_neg hxy, if_neg (Ne.symm hxy)]
        simp only [Bool.or_eq_true, decide_eq_true_eq]
        omega

/-- The order used by listConversations is transitive. -/
theorem tsLE_trans (oa ob oc : Option Nat) (ca cb cc : Nat)
    (h1 : tsLE oa ob ca cb = true) (h2 : tsLE ob oc cb cc = true) :
    tsLE oa oc ca cc = true := by
  cases oa with
  | some x =>
    cases oc with
    | none => cases ob <;> simp [tsLE]
    | some z =>
      cases ob with
      | none =>
        simp only [tsLE] at h2
        exact absurd h2 (by simp)
      | some y =>
        simp only [tsLE] at h1 h2 ⊢
        by_cases hxy : x = y
        · subst hxy
          rw [if_pos rfl] at h1
          by_cases hyz : x = z
          · subst hyz
            rw [if_pos rfl] at h2
            rw [if_pos rfl]
            simp only [decide_eq_true_eq] at h1 h2 ⊢
            omega
          · rw [if_neg hyz] at h2
            rw [if_neg hyz]
            exact h2
        · rw [if_neg hxy] at h1
          by_cases hyz : y = z
          · subst hyz
            rw [if_neg hxy]
            exact h1
          · rw [if_neg hyz] at h2
            have hxz : ¬x = z := by
              simp only [decide_eq_true_eq] at h1 h2
              omega
            rw [if_neg hxz]
            simp only [decide_eq_true_eq] at h1 h2 ⊢
            omega
  | none =>
    cases ob with
    | some y =>
      simp only [tsLE] at h1
      exact absurd h1 (by simp)
    | none =>
      cases oc with
      | some z =>
        simp only [tsLE] at h2
        exact absurd h2 (by simp)
      | none =>
        simp only [tsLE, decide_eq_true_eq] at h1 h2 ⊢
        omega

/-- The relation `convLE` is total. -/
theorem convLE_total (a b : Conversation) : (convLE a b || convLE b a) = true :=
  tsLE_total a.last_message_at b.last_message_at a.created_at b.created_at

/-- The relation `convLE` is transitive. -/
theorem convLE_trans (a b c : Conversation) (h1 : convLE a b = true)
    (h2 : convLE b c = true) : convLE a c = true :=
  tsLE_trans a.last_message_at b.last_message_at c.last_message_at
    a.created_at b.created_at c.created_at h1 h2

/-- A row passing the filter under role buyer has the caller as buyer. -/
theorem roleFilter_buyer (userId : Nat) (c : Conversation)
    (h : roleFilter userId "buyer" c = true) : c.buyer_id = userId := by
  unfold roleFilter at h
  rw [if_pos (by decide)] at h
  simpa using h

/-- A row passing the filter under role manufacturer has the caller as
manufacturer. -/
theorem roleFilter_manufacturer (userId : Nat) (c : Conversation)
    (h : roleFilter userId "manufacturer" c = true) : c.manufacturer_id = userId := by
  unfold roleFilter at h
  rw [if_neg (by decide), if_pos (by decide)] at h
  simpa using h

/-- A row passing the cursor filter has a timestamp strictly before it. -/
theorem cursorFilter_some (t : Nat) (c : Conversation)
    (h : cursorFilter (some t) c = true) :
    ∃ x, c.last_message_at = some x ∧ x < t := by
  unfold cursorFilter at h
  cases hx : c.last_message_at with
  | none =>
    rw [hx] at h
    exact absurd h (by simp)
  | some x =>
    rw [hx] at h
    exact ⟨x, rfl, by simpa using h⟩

/-- A row passing a nonempty (after trimming) search filter has a summary
text containing the trimmed search, case-insensitively. -/
theorem searchFilter_some (q : String) (c : Conversation)
    (h : searchFilter (some q) c = true) (hq : 0 < q.trim.length) :
    ∃ txt, c.last_message_text = some txt ∧ containsCI txt q.trim = true := by
  simp only [searchFilter] at h
  rw [if_pos hq] at h
  cases hx : c.last_message_text with
  | none =>
    rw [hx] at h
    exact absurd h (by simp)
  | some txt =>
    rw [hx] at h
    exact ⟨txt, rfl, h⟩

/-- Claim C7, amended: every returned conversation has the caller as buyer
when role is "buyer" and as manufacturer when role is "manufacturer" (for
any other role value the code applies no participant filter); the result is
sorted by `last_message_at` descending nulls last with `created_at`
descending as tie-break; with a cursor, every returned row's
`last_message_at` is non-null and strictly before it; with a search string
that is nonempty after trimming, every returned row's `last_message_text`
contains the trimmed search case-insensitively. -/
theorem listConversations_spec (s : Store) (userId : Nat) (role : String)
    (search : Option String) (cursor : Option Nat) (limit offset : Nat) :
    (∀ v ∈ listConversations s userId role search cursor limit offset,
        ((role = "buyer" → v.conversation.buyer_id = userId)
            ∧ (role = "manufacturer" → v.conversation.manufacturer_id = userId))
          ∧ (∀ t, cursor = some t →
              ∃ x, v.conversation.last_message_at = some x ∧ x < t)
          ∧ (∀ q, search = some q → 0 < q.trim.length →
              ∃ txt, v.conversation.last_message_text = some txt
                ∧ containsCI txt q.trim = true))
      ∧ (listConversations s userId role search cursor limit offset).Pairwise
          (fun a b => convLE a.conversation b.conversation = true) := by
  constructor
  · intro v hv
    unfold listConversations at hv
    obtain ⟨c, hc, hvc⟩ := List.mem_map.mp hv
    subst hvc
    have hc2 : c ∈ s.conversations.filter (fun c =>
        roleFilter userId role c && cursorFilter cursor c && searchFilter search c) :=
      List.mem_mergeSort.mp (List.drop_subset _ _ (List.take_subset _ _ hc))
    have hpred := (List.mem_filter.mp hc2).2
    simp only [Bool.and_eq_true] at hpred
    obtain ⟨⟨hrole, hcursor⟩, hsearch⟩ := hpred
    refine ⟨⟨?_, ?_⟩, ?_, ?_⟩
    · intro hb
      subst hb
      exact roleFilter_buyer userId c hrole
    · intro hm
      subst hm
      exact roleFilter_manufacturer userId c hrole
    · intro t ht
      subst ht
      exact cursorFilter_some t c hcursor
    · intro q hq hlen
      subst hq
      exact searchFilter_some q c hsearch hlen
  · unfold listConversations
    have hpw : List.Pairwise (fun a b => convLE a b = true)
        ((((s.conversations.filter (fun c =>
            roleFilter userId role c && cursorFilter cursor c
              && searchFilter search c)).mergeSort convLE).drop offset).take limit) :=
      List.Pairwise.sublist ((List.take_sublist _ _).trans (List.drop_sublist _ _))
        (List.sorted_mergeSort convLE_trans convLE_total _)
    exact List.Pairwise.map _ (fun a b hab => hab) hpw

/-- Counterexample to claim C7 as stated: for role "admin" the code applies
no participant filter, so user 3 receives the conversation of buyer 1 and
manufacturer 2 despite being a participant of neither. -/
theorem listConversations_role_counterexample :
    listConversations store7 3 "admin" none none 50 0
        = [{ conversation := conv7, unread_count := 0 }]
      ∧ conv7.buyer_id ≠ 3 ∧ conv7.manufacturer_id ≠ 3 := by
  refine ⟨?_, by decide, by decide⟩
  unfold listConversations
  rw [show store7.conversations.filter (fun c =>
        roleFilter 3 "admin" c && cursorFilter none c && searchFilter none c) = [conv7]
      from by decide]
  rw [List.mergeSort_singleton]
  rfl

/-- Witness for the amended C7: buyer 1 listing with role "buyer" on
`store7` gets back `conv7`, whose buyer is indeed user 1. -/
theorem listConversations_spec_witness : conv7.buyer_id = 1 := by
  have hm : ({ conversation := conv7, unread_count := 0 } : ConversationView)
      ∈ listConversations store7 1 "buyer" none none 50 0 := by
    have hres : listConversations store7 1 "buyer" none none 50 0
        = [{ conversation := conv7, unread_count := 0 }] := by
      unfold listConversations
      rw [show store7.conversations.filter (fun c =>
            roleFilter 1 "buyer" c && cursorFilter none c && searchFilter none c) = [conv7]
          from by decide]
      rw [List.mergeSort_singleton]
      rfl
    rw [hres]
    exact List.mem_singleton.mpr rfl
  exact ((listConversations_spec store7 1 "buyer" none none 50 0).1 _ hm).1.1 rfl


/-- Claim C8: a send-message event with no conversation id, or with neither
a usable body nor attachments, or naming a conversation that cannot be
fetched, or whose sender is not a participant, changes nothing: no message
is inserted, the store is untouched, and nothing is emitted or errored —
the event is silently dropped. -/
theorem onMessageSend_drops_invalid (s : Store) (userId : Nat) (role : String)
    (p : SendPayload) (nid fid now : Nat)
    (h : p.conversationId = none
      ∨ (hasBody p.body = false ∧ hasAttachments p.attachments = false)
      ∨ (∀ cid, p.conversationId = some cid → getConversationById s cid = none)
      ∨ (∀ cid convo, p.conversationId = some cid →
          getConversationById s cid = some convo →
          isParticipant role userId convo = false)) :
    onMessageSend s userId role p nid fid now = (s, none) := by
  cases hc : p.conversationId with
  | none =>
    unfold onMessageSend
    rw [hc]
  | some cid =>
    have hstep : onMessageSend s userId role p nid fid now
        = onMessageSendChecked s userId role cid p nid fid now := by
      unfold onMessageSend
      rw [hc]
    rw [hstep]
    rcases h with h | h | h | h
    · rw [hc] at h
      exact absurd h (by simp)
    · unfold onMessageSendChecked
      rw [h.1, h.2]
      rfl
    · have hnone := h cid hc
      unfold onMessageSendChecked
      cases hbb : (hasBody p.body || hasAttachments p.attachments) with
      | false => rfl
      | true =>
        rw [hnone]
        rfl
    · unfold onMessageSendChecked
      cases hbb : (hasBody p.body || hasAttachments p.attachments) with
      | false => rfl
      | true =>
        cases hcv : getConversationById s cid with
        | none => rfl
        | some convo =>
          have hp := h cid convo hc hcv
          show onMessageSendParticipant s userId role cid convo p nid fid now
            = (s, none)
          unfold onMessageSendParticipant
          rw [hp]
          rfl

/-- Witness for C8: a payload without a conversation id is dropped. -/
theorem onMessageSend_drops_invalid_witness :
    onMessageSend store7 1 "buyer" pay8 10 20 30 = (store7, none) :=
  onMessageSend_drops_invalid store7 1 "buyer" pay8 10 20 30 (Or.inl rfl)

/-- An unresolvable message id makes the cutoff fall back to now. -/
theorem resolveUpTo_none (s : Store) (mid now : Nat)
    (h : findMessageById s mid = none) : resolveUpTo s (some mid) now = now := by
  simp only [resolveUpTo]
  rw [h]

/-- Claim C10: a mark-read event whose `upToMessageId` cannot be resolved
to a message row is not dropped: the handler falls back to the current time
as the cutoff, applies markRead with it, and broadcasts a read receipt
whose `at` field is that current time. -/
theorem onMessageRead_unknown_fallback (s : Store) (userId : Nat) (role : String)
    (cid mid now : Nat) (convo : Conversation)
    (h1 : getConversationById s cid = some convo)
    (h2 : isParticipant role userId convo = true)
    (h3 : findMessageById s mid = none) :
    onMessageRead s userId role (some cid) (some mid) now
      = ((markRead s cid userId now).1,
         some { conversationId := cid, readerUserId := userId,
                upToMessageId := some mid, receiptAt := now }) := by
  show onMessageReadConv s userId role cid (some mid) now = _
  unfold onMessageReadConv
  rw [h1]
  show onMessageReadParticipant s userId role cid convo (some mid) now = _
  unfold onMessageReadParticipant
  rw [h2, resolveUpTo_none s mid now h3]
  rfl

/-- Witness for C10: on `store7` (no messages) a mark-read for message 99
resolves to the supplied current time 11. -/
theorem onMessageRead_unknown_fallback_witness :
    onMessageRead store7 1 "buyer" (some 0) (some 99) 11
      = ((markRead store7 0 1 11).1,
         some { conversationId := 0, readerUserId := 1,
                upToMessageId := some 99, receiptAt := 11 }) :=
  onMessageRead_unknown_fallback store7 1 "buyer" 0 99 11 conv7
    (by decide) (by decide) (by decide)

/-- After `presenceSet m u v` the entry for `u` holds `v`. -/
theorem presenceGet_set (m : List (Nat × Nat)) (u v : Nat) :
    presenceGet (presenceSet m u v) u = v := by
  unfold presenceSet
  by_cases hs : (m.find? (fun e => e.1 == u)).isSome
  · rw [if_pos hs]
    unfold presenceGet
    rw [List.find?_map]
    have hp : ((fun e => e.1 == u) ∘ (fun e => if e.1 == u then ((u, v) : Nat × Nat) else e))
        = (fun e => e.1 == u) := by
      funext e
      by_cases he : (e.1 == u) = true
      · simp [Function.comp, he]
      · simp [Function.comp, he]
    rw [hp]
    obtain ⟨e0, he0⟩ := Option.isSome_iff_exists.mp hs
    rw [he0]
    have hpe : (e0.1 == u) = true := by
      have h2 := List.find?_some he0
      simpa using h2
    show (if e0.1 == u then ((u, v) : Nat × Nat) else e0).2 = v
    rw [if_pos hpe]
  · rw [if_neg hs]
    unfold presenceGet
    rw [List.find?_append, Option.not_isSome_iff_eq_none.mp hs]
    simp

/-- After `presenceDelete m u` no entry for `u` remains. -/
theorem presenceDelete_find (m : List (Nat × Nat)) (u : Nat) :
    (presenceDelete m u).find? (fun e => e.1 == u) = none := by
  rw [List.find?_eq_none]
  intro e he
  have h2 := (List.mem_filter.mp he).2
  simp at h2 ⊢
  exact h2

/-- After `presenceDelete m u` the count of `u` reads 0. -/
theorem presenceGet_delete (m : List (Nat × Nat)) (u : Nat) :
    presenceGet (presenceDelete m u) u = 0 := by
  unfold presenceGet
  rw [presenceDelete_find]

/-- A positive count means an entry exists. -/
theorem presenceGet_pos_isSome (m : List (Nat × Nat)) (u : Nat)
    (h : 0 < presenceGet m u) : (m.find? (fun e => e.1 == u)).isSome = true := by
  unfold presenceGet at h
  cases hf : m.find? (fun e => e.1 == u) with
  | none =>
    rw [hf] at h
    exact absurd h (by simp)
  | some e => rfl

/-- Claim C9: for every presence map and user (in particular every state
reachable from the empty map), the disconnect handler decrements the user's
connection count; the entry is removed and the offline presence signal is
emitted exactly when the count reaches zero, and no offline signal is
emitted while other connections for the user remain. -/
theorem onDisconnect_spec (m : List (Nat × Nat)) (u : Nat) :
    presenceGet (onDisconnect m u).1 u = presenceGet m u - 1
      ∧ ((onDisconnect m u).2 = true ↔ presenceGet m u ≤ 1)
      ∧ (((onDisconnect m u).1.find? (fun e => e.1 == u)).isSome = false
          ↔ presenceGet m u ≤ 1)
      ∧ (1 < presenceGet m u → (onDisconnect m u).2 = false) := by
  by_cases hle : presenceGet m u ≤ 1
  · have hres : onDisconnect m u = (presenceDelete m u, true) := by
      unfold onDisconnect
      rw [if_pos hle]
    rw [hres]
    refine ⟨?_, ?_, ?_, ?_⟩
    · rw [presenceGet_delete]
      omega
    · simp [hle]
    · rw [presenceDelete_find]
      simp [hle]
    · intro hgt
      omega
  · have hres : onDisconnect m u = (presenceSet m u (presenceGet m u - 1), false) := by
      unfold onDisconnect
      rw [if_neg hle]
    rw [hres]
    refine ⟨?_, ?_, ?_, ?_⟩
    · exact presenceGet_set m u (presenceGet m u - 1)
    · simp [hle]
    · have hsome : ((presenceSet m u (presenceGet m u - 1)).find?
          (fun e => e.1 == u)).isSome = true := by
        apply presenceGet_pos_isSome
        rw [presenceGet_set]
        omega
      rw [hsome]
      simp [hle]
    · intro hgt
      rfl

/-- Witness for C9: a user with two live connections disconnecting once
keeps one connection and no offline signal is emitted. -/
theorem onDisconnect_spec_witness :
    (onDisconnect [(7, 2)] 7).2 = false
      ∧ presenceGet (onDisconnect [(7, 2)] 7).1 7 = 1 :=
  ⟨(onDisconnect_spec [(7, 2)] 7).2.2.2 (by decide),
   (onDisconnect_spec [(7, 2)] 7).1⟩
